import Mathlib

/-!
Verification development for the Akademi community bot.

Shallow embedding of the poll lifecycle (bot.py, database.py, scheduler.py),
the coffee matching pool (src/services/match_service.py) and the per-user
rate limiter (src/core/rate_limiter.py).  Stateful Python code is embedded
as explicit state-passing functions; the SQLite tables become lists of
records; wall-clock timestamps are integer seconds; calls to external
collaborators (Slack client, Groq, APScheduler) are abstracted into
explicit environment records and effect logs, as the specification treats
them as external collaborators.
-/

namespace AkademiBot

/-! ## Association-list helpers (Python `dict` semantics) -/

/-- Lookup of a Python dict modelled as an association list. -/
def lookupAssoc {α : Type} : List (String × α) → String → Option α
  | [], _ => none
  | e :: m, k => if e.1 = k then some e.2 else lookupAssoc m k

/-- `d[k] = v` on a Python dict: replace any existing binding of `k`. -/
def setAssoc {α : Type} (m : List (String × α)) (k : String) (v : α) :
    List (String × α) :=
  m.filter (fun e => e.1 ≠ k) ++ [(k, v)]

/-- `del d[k]` on a Python dict. -/
def delAssoc {α : Type} (m : List (String × α)) (k : String) :
    List (String × α) :=
  m.filter (fun e => e.1 ≠ k)

/-- Python `int(a / b)` for an integer `a` and positive integer `b`:
the float quotient truncated toward zero. -/
def intTrunc (a b : Int) : Int :=
  if 0 ≤ a then ((a.toNat / b.toNat : Nat) : Int)
  else -(((-a).toNat / b.toNat : Nat) : Int)

/-- Python list indexing `xs[i]` (negative indices wrap once from the end);
`none` models an `IndexError`. -/
def pyGet (xs : List String) (i : Int) : Option String :=
  let j : Int := if i < 0 then i + xs.length else i
  if 0 ≤ j then xs.get? j.toNat else none

/-! ## Data model: `polls` and `votes` tables (database.py) -/

/-- A row of the `polls` table. -/
structure PollRec where
  id : Nat
  channelId : String
  messageTs : String
  creatorId : String
  topic : String
  /-- `options` column: JSON list of labels, held decoded. -/
  options : List String
  /-- `end_time` column, as seconds. -/
  endTime : Int
  /-- `is_active` column (1 = open). -/
  isActive : Bool
deriving Repr, DecidableEq

/-- A row of the `votes` table; `PRIMARY KEY (poll_id, user_id)`. -/
structure VoteRec where
  pollId : Nat
  userId : String
  optionIndex : Int
deriving Repr, DecidableEq

/-- The SQLite database state used by the legacy poll system.
`nextPollId` models SQLite's AUTOINCREMENT / `lastrowid`. -/
structure BotDB where
  polls : List PollRec
  votes : List VoteRec
  nextPollId : Nat
deriving Repr, DecidableEq

/-- `create_poll` (database.py): INSERT a new row with `is_active = 1`,
returning `lastrowid`. -/
def create_poll (db : BotDB) (channelId messageTs creatorId topic : String)
    (options : List String) (endTime : Int) : BotDB × Nat :=
  ({ db with
      polls := db.polls ++
        [⟨db.nextPollId, channelId, messageTs, creatorId, topic, options,
          endTime, true⟩],
      nextPollId := db.nextPollId + 1 },
   db.nextPollId)

/-- `add_vote` (database.py): `INSERT OR REPLACE INTO votes` keyed by
`(poll_id, user_id)` — an upsert. -/
def add_vote (db : BotDB) (pollId : Nat) (userId : String)
    (optionIndex : Int) : BotDB :=
  { db with
      votes :=
        db.votes.filter (fun v => ¬(v.pollId = pollId ∧ v.userId = userId))
          ++ [⟨pollId, userId, optionIndex⟩] }

/-- `has_user_voted` (database.py): `SELECT 1 FROM votes WHERE poll_id = ?
AND user_id = ?` is non-empty. -/
def has_user_voted (db : BotDB) (pollId : Nat) (userId : String) : Bool :=
  db.votes.any (fun v => v.pollId = pollId && v.userId = userId)

/-- `get_poll_by_ts` (database.py): first row whose `message_ts` matches. -/
def get_poll_by_ts (db : BotDB) (messageTs : String) : Option PollRec :=
  db.polls.find? (fun p => p.messageTs = messageTs)

/-- `get_poll_results` (database.py): `SELECT option_index, COUNT(*) ...
GROUP BY option_index`, read through Python's `results.get(i, 0)` — the
number of vote rows of the poll carrying each option index. -/
def get_poll_results (db : BotDB) (pollId : Nat) (i : Int) : Nat :=
  (db.votes.filter (fun v => v.pollId = pollId && v.optionIndex = i)).length

/-- `close_poll` (database.py): `UPDATE polls SET is_active = 0 WHERE id = ?`. -/
def close_poll (db : BotDB) (pollId : Nat) : BotDB :=
  { db with
      polls := db.polls.map
        (fun p => if p.id = pollId then { p with isActive := false } else p) }

/-! ## `handle_vote_action` (bot.py) -/

/-- Observable outcome of one button-click vote interaction. -/
inductive VoteOutcome where
  /-- Poll not found for the message: silently return. -/
  | ignored
  /-- "⌛ Bu oylama sona erdi." -/
  | pollEnded
  /-- "⚠️ Bu oylama için zaten oy kullandın..." -/
  | alreadyVoted
  /-- "✅ Oyun kaydedildi: ..." with the chosen option's label. -/
  | acked (label : String)
  /-- `options[option_index]` raised IndexError while building the
  acknowledgement — after the vote was persisted. -/
  | ackIndexError
deriving Repr, DecidableEq

/-- `handle_vote_action` (bot.py): fetch the poll by message timestamp,
reject if closed, reject if the user has already voted, otherwise persist
the vote via `add_vote` and acknowledge with `options[option_index]`.
The database write always succeeds in this model. -/
def handle_vote_action (db : BotDB) (messageTs userId : String)
    (optionIndex : Int) : BotDB × VoteOutcome :=
  match get_poll_by_ts db messageTs with
  | none => (db, .ignored)
  | some poll =>
      if !poll.isActive then (db, .pollEnded)
      else if has_user_voted db poll.id userId then (db, .alreadyVoted)
      else
        let db1 := add_vote db poll.id userId optionIndex
        match pyGet poll.options optionIndex with
        | some label => (db1, .acked label)
        | none => (db1, .ackIndexError)

/-! ## `handle_poll_command` (bot.py) -/

/-- The `/oylama` command text after the source's tokenization:
`main_parts = text.split(maxsplit=1)`, `minutes = int(main_parts[0])` and
`content_parts = main_parts[1].split("|")` are abstracted into their
results, with each part already `.strip()`-ped; `minutes = none` models
the `ValueError` raised when the text has fewer than two
whitespace-separated parts or a non-integer first token. -/
structure PollCmdInput where
  isAdmin : Bool
  minutes : Option Int
  contentParts : List String
deriving Repr, DecidableEq

/-- Observable outcome of one `/oylama` command. -/
inductive PollCmdOutcome where
  /-- "🚫 Bu komutu sadece adminler kullanabilir." -/
  | notAdmin
  /-- ValueError path: "⚠️ Hatalı format! ..." (generic usage message). -/
  | formatError
  /-- Poll message sent, row persisted, closure task scheduled. -/
  | created (pollId : Nat) (minutes : Int)
deriving Repr, DecidableEq

/-- Pending one-shot poll-closure jobs of the APScheduler instance:
`(job id, delay in minutes)` as added by `schedule_poll_close`. -/
structure SchedState where
  closeJobs : List (String × Int)
deriving Repr, DecidableEq

/-- `schedule_poll_close` (scheduler.py): add a one-shot job with id
`"close_" + message_ts` to run `minutes` from now. -/
def schedule_poll_close (sched : SchedState) (messageTs : String)
    (minutes : Int) : SchedState :=
  { closeJobs := sched.closeJobs ++ [("close_" ++ messageTs, minutes)] }

/-- `handle_poll_command` (bot.py): admin check, parse (`ValueError` on a
missing/non-integer minute token or fewer than three `|`-separated content
parts), then post the poll message, `create_poll` with
`end_time = now + minutes` and `schedule_poll_close`.  No option-count
upper bound and no duration bound is checked. -/
def handle_poll_command (db : BotDB) (sched : SchedState)
    (inp : PollCmdInput) (channelId userId messageTs : String) (now : Int) :
    BotDB × SchedState × PollCmdOutcome :=
  if !inp.isAdmin then (db, sched, .notAdmin)
  else
    match inp.minutes with
    | none => (db, sched, .formatError)
    | some minutes =>
        if inp.contentParts.length < 3 then (db, sched, .formatError)
        else
          let topic := inp.contentParts.headD ""
          let options := inp.contentParts.tail
          let endTime := now + minutes * 60
          let (db1, pollId) :=
            create_poll db channelId messageTs userId topic options endTime
          let sched1 := schedule_poll_close sched messageTs minutes
          (db1, sched1, .created pollId minutes)

/-! ## `close_poll_task` (scheduler.py) -/

/-- Content of one "OYLAMA SONA ERDİ" results message: the per-option
counts rendered in the body, and `some winners` for the "🏆 Kazanan:" line
(`none` renders "🤔 Hiç oy kullanılmadı."). -/
structure PollResultPost where
  channelId : String
  topic : String
  counts : List Nat
  winners : Option (List String)
deriving Repr, DecidableEq

/-- One iteration of the winner-determination loop of `close_poll_task`:
`count > max_votes` resets the winner list, `count == max_votes and
count > 0` appends a tied option. -/
def tallyStep (results : Int → Nat) (acc : Int × List String)
    (x : Nat × String) : Int × List String :=
  let count : Int := (results (x.1 : Int) : Int)
  if acc.1 < count then (count, [x.2])
  else if count = acc.1 ∧ 0 < count then (acc.1, acc.2 ++ [x.2])
  else acc

/-- The full winner-determination loop: fold over `enumerate(options)`
starting from `max_votes = -1`, `winners = []`. -/
def tallyLoop (results : Int → Nat) (options : List String) :
    Int × List String :=
  options.enum.foldl (tallyStep results) (-1, [])

/-- The maximum per-option count over an enumerated option list, folded
from the loop's initial `max_votes = -1`. -/
def maxCount (results : Int → Nat) (l : List (Nat × String)) : Int :=
  l.foldr (fun x a => max ((results (x.1 : Int) : Nat) : Int) a) (-1)

/-- The labels of the enumerated options attaining count `m`, in order. -/
def winnersOf (results : Int → Nat) (m : Int) (l : List (Nat × String)) :
    List String :=
  (l.filter (fun x => ((results (x.1 : Int) : Nat) : Int) = m)).map Prod.snd

/-- `close_poll_task` (scheduler.py): fetch the poll by message timestamp;
no-op when absent or already inactive; otherwise tally, `close_poll`, and
post one results message.  The best-effort deletion of the original poll
message is an external side effect without model state. -/
def close_poll_task (db : BotDB) (posts : List PollResultPost)
    (messageTs : String) : BotDB × List PollResultPost :=
  match get_poll_by_ts db messageTs with
  | none => (db, posts)
  | some poll =>
      if !poll.isActive then (db, posts)
      else
        let results := get_poll_results db poll.id
        let db1 := close_poll db poll.id
        let tally := tallyLoop results poll.options
        let counts := poll.options.enum.map (fun x => results (x.1 : Int))
        let post : PollResultPost :=
          ⟨poll.channelId, poll.topic, counts,
            if 0 < tally.1 then some tally.2 else none⟩
        (db1, posts ++ [post])

/-! ## `CoffeeMatchService` (src/services/match_service.py) -/

/-- A Match row.  `Modelled from the spec:` `MatchRepository` (imported by
the service but absent from the sources) is the generic row store of §1/§3:
`create` inserts a row with a fresh id, `update` overwrites named fields of
the row with that id, `get` reads it back. -/
structure MatchRec where
  id : Nat
  channelId : String
  user1 : String
  user2 : String
  status : String
  summary : Option String
deriving Repr, DecidableEq

/-- An admin-channel "EŞLEŞME ÖZETİ RAPORU" message. -/
structure AdminReport where
  channelId : String
  user1 : String
  user2 : String
  summary : String
deriving Repr, DecidableEq

/-- The mutable state owned by `CoffeeMatchService`, together with the
match rows of its repository and the observable message side effects. -/
structure CoffeeState where
  /-- `self.waiting_pool`: FIFO list of waiting user ids. -/
  waitingPool : List String
  /-- `self.last_request_time`: user id → last request time (seconds). -/
  lastRequestTime : List (String × Int)
  /-- `self.pool_timeout_jobs`: user id → cron job id. -/
  poolTimeoutJobs : List (String × String)
  /-- Job ids currently scheduled in the cron client. -/
  cronJobs : List String
  /-- Match rows held by `match_repo`. -/
  matchRows : List MatchRec
  /-- Fresh id for `match_repo.create`. -/
  nextMatchId : Nat
  /-- Reports posted to the admin channel by `close_match`. -/
  adminReports : List AdminReport
  /-- Channels that received the "Süremiz doldu" closing notice. -/
  closingNotices : List String
  /-- Channels closed via `conv.close_conversation`. -/
  closedChannels : List String
deriving Repr, DecidableEq

/-- The empty initial service state. -/
def coffeeInit : CoffeeState :=
  ⟨[], [], [], [], [], 0, [], [], []⟩

/-- Success/failure of the external collaborators used while starting a
match (`conv.open_conversation`, `match_repo.create`), and the channel id
a successful open returns. -/
structure CoffeeEnv where
  openConversationOk : Bool
  createMatchOk : Bool
  newChannelId : String
deriving Repr, DecidableEq

/-- Message returned to the requesting user by `request_coffee`, or the
`CemilBotError` it lets escape. -/
inductive CoffeeOutcome where
  /-- "⏳ Bir sonraki kahve isteğinizi N dakika sonra yapabilirsiniz." -/
  | cooldownRejected (remainingMinutes : Int)
  /-- "⏳ Zaten kahve havuzunda bekliyorsunuz..." -/
  | alreadyWaiting
  /-- "✅ Harika! Bir kahve arkadaşı bulduk..." -/
  | matched (partner : String)
  /-- "☕ Kahve isteğiniz alındı! ..." -/
  | waiting
  /-- `start_match` raised `CemilBotError`; `request_coffee` does not
  catch it. -/
  | matchError
deriving Repr, DecidableEq

/-- `can_request_coffee`: cooldown check (5 minutes = 300 seconds, with the
remaining minutes computed as `5 - int(elapsed.total_seconds() / 60)`),
then the already-in-pool check.  Returns the rejection, or `none` when the
request may proceed. -/
def can_request_coffee (st : CoffeeState) (userId : String) (now : Int) :
    Option CoffeeOutcome :=
  match lookupAssoc st.lastRequestTime userId with
  | some t =>
      if now - t < 300 then
        some (.cooldownRejected (5 - intTrunc (now - t) 60))
      else if userId ∈ st.waitingPool then some .alreadyWaiting
      else none
  | none =>
      if userId ∈ st.waitingPool then some .alreadyWaiting
      else none

/-- `start_match`: open the two-user conversation, persist the Match row
with status `"active"`, send the icebreaker (external side effect), and
schedule the `close_match_<channel>` one-shot job.  `none` models the
`CemilBotError` raised when opening the conversation or persisting fails;
whatever state changes happened before the failure are kept. -/
def start_match (env : CoffeeEnv) (st : CoffeeState) (u1 u2 : String) :
    Option CoffeeState :=
  if !env.openConversationOk then none
  else if !env.createMatchOk then none
  else
    let channelId := env.newChannelId
    let st1 : CoffeeState := { st with
      matchRows := st.matchRows ++
        [⟨st.nextMatchId, channelId, u1, u2, "active", none⟩],
      nextMatchId := st.nextMatchId + 1 }
    some { st1 with cronJobs := st1.cronJobs ++ ["close_match_" ++ channelId] }

/-- `request_coffee`: after `can_request_coffee`, record the request time;
pop the earliest waiter as partner when the pool is non-empty (cancelling
the partner's timeout job) and start the match, else enter the pool and
schedule a 5-minute `coffee_timeout_<user>` job. -/
def request_coffee (env : CoffeeEnv) (st : CoffeeState)
    (userId _channelId : String) (now : Int) : CoffeeState × CoffeeOutcome :=
  match can_request_coffee st userId now with
  | some outcome => (st, outcome)
  | none =>
      let st1 := { st with
        lastRequestTime := setAssoc st.lastRequestTime userId now }
      match st1.waitingPool with
      | partner :: rest =>
          let st2 := { st1 with waitingPool := rest }
          let st3 :=
            match lookupAssoc st2.poolTimeoutJobs partner with
            | some jobId =>
                { st2 with
                    cronJobs := st2.cronJobs.filter (fun j => j ≠ jobId),
                    poolTimeoutJobs := delAssoc st2.poolTimeoutJobs partner }
            | none => st2
          match start_match env st3 userId partner with
          | some st4 => (st4, .matched partner)
          | none => (st3, .matchError)
      | [] =>
          let jobId := "coffee_timeout_" ++ userId
          let st2 := { st1 with
            waitingPool := st1.waitingPool ++ [userId],
            cronJobs := st1.cronJobs ++ [jobId],
            poolTimeoutJobs := setAssoc st1.poolTimeoutJobs userId jobId }
          (st2, .waiting)

/-- `_timeout_user`: remove the user from the pool if still present (the
no-op branch handles the already-matched race), best-effort DM (external),
then clear the user's timeout-job handle if present. -/
def timeout_user (st : CoffeeState) (userId : String) : CoffeeState :=
  let st1 :=
    if userId ∈ st.waitingPool then
      { st with waitingPool := st.waitingPool.erase userId }
    else st
  if (lookupAssoc st1.poolTimeoutJobs userId).isSome then
    { st1 with poolTimeoutJobs := delAssoc st1.poolTimeoutJobs userId }
  else st1

/-- External collaborators of `close_match`: whether fetching the
conversation history succeeds (a failure is swallowed by the outer
`except`, abandoning the whole closure), the human-authored messages it
returns, the Groq summary, and the configured admin channel. -/
structure CloseEnv where
  historyOk : Bool
  humanMessages : List String
  groqSummary : String
  adminChannel : Option String
deriving Repr, DecidableEq

/-- Fixed summary used when no human message exists. -/
def noConversationSummary : String :=
  "Eşleşme süresince herhangi bir konuşma gerçekleşmedi."

/-- The summary `close_match` produces: the fixed sentinel when no human
message exists, else the Groq one-sentence summary. -/
def closeSummary (env : CloseEnv) : String :=
  if env.humanMessages.isEmpty then noConversationSummary
  else env.groqSummary

/-- The row update `match_repo.update(match_id, {"status": "closed",
"summary": summary})` applies to each stored row. -/
def closeUpd (matchId : Nat) (summary : String) (m : MatchRec) : MatchRec :=
  if m.id = matchId then
    { m with status := "closed", summary := some summary }
  else m

/-- `close_match`: summarize the conversation, update the Match row to
`closed`, report to the admin channel when configured, post the closing
notice and close the conversation.  The source has no already-closed
guard: every invocation repeats all steps.  When `match_repo.get` finds no
row, reading its fields raises and the outer `except` swallows the rest. -/
def close_match (env : CloseEnv) (st : CoffeeState)
    (channelId : String) (matchId : Nat) : CoffeeState :=
  if !env.historyOk then st
  else
    let summary := closeSummary env
    let st1 : CoffeeState := { st with
      matchRows := st.matchRows.map (closeUpd matchId summary) }
    match env.adminChannel with
    | some _ =>
        match st1.matchRows.find? (fun m => m.id = matchId) with
        | some md =>
            let st2 : CoffeeState := { st1 with
              adminReports := st1.adminReports ++
                [⟨channelId, md.user1, md.user2, summary⟩] }
            { st2 with
                closingNotices := st2.closingNotices ++ [channelId],
                closedChannels := st2.closedChannels ++ [channelId] }
        | none => st1
    | none =>
        { st1 with
            closingNotices := st1.closingNotices ++ [channelId],
            closedChannels := st1.closedChannels ++ [channelId] }

/-- One user-visible operation on the matching pool. -/
inductive CoffeeOp where
  | request (env : CoffeeEnv) (userId channelId : String) (now : Int)
  | timeout (userId : String)

/-- Apply one operation to the service state. -/
def coffeeStep (st : CoffeeState) (op : CoffeeOp) : CoffeeState :=
  match op with
  | .request env u ch now => (request_coffee env st u ch now).1
  | .timeout u => timeout_user st u

/-- Apply a sequence of operations. -/
def coffeeRun (st : CoffeeState) (ops : List CoffeeOp) : CoffeeState :=
  ops.foldl coffeeStep st

/-! ## `RateLimiter` (src/core/rate_limiter.py) and the `/oylama` handler
(src/handlers/poll_handler.py) -/

/-- Sliding-window rate limiter: per-user list of timestamps (seconds) of
previously allowed requests. -/
structure RateLimiter where
  maxRequests : Nat
  windowSeconds : Int
  requests : List (String × List Int)
deriving Repr, DecidableEq

/-- `self.requests[user_id]` of the `defaultdict(list)`. -/
def RateLimiter.getRequests (rl : RateLimiter) (u : String) : List Int :=
  (lookupAssoc rl.requests u).getD []

/-- In-place overwrite of one user's timestamp list. -/
def RateLimiter.setRequests (rl : RateLimiter) (u : String) (l : List Int) :
    RateLimiter :=
  { rl with requests := setAssoc rl.requests u l }

/-- `RateLimiter.is_allowed`: prune entries at or before
`now - window_seconds`; deny (without recording) when the pruned list has
reached `max_requests`, reporting the seconds until the oldest entry
leaves the window; otherwise record `now` and allow.  Returns the new
limiter, the allowed flag, and the wait seconds of a denial message. -/
def is_allowed (rl : RateLimiter) (u : String) (now : Int) :
    RateLimiter × Bool × Option Int :=
  let pruned := (rl.getRequests u).filter
    (fun t => now - rl.windowSeconds < t)
  if rl.maxRequests ≤ pruned.length then
    let oldest := pruned.min?.getD now
    (rl.setRequests u pruned, false, some (oldest + rl.windowSeconds - now))
  else
    (rl.setRequests u (pruned ++ [now]), true, none)

/-- A successfully validated `/oylama` request.  `Modelled from the spec:`
`PollRequest.parse_from_text` lives in src/core/validators.py, which is
absent from the sources; per §4.2 and tests/test_validators.py it yields
minutes, topic and options after validating the bounds. -/
structure PollRequestData where
  minutes : Int
  topic : String
  options : List String
deriving Repr, DecidableEq

/-- The collaborator results the new-style `/oylama` handler consults
after the rate-limit gate: the admin flag, the parse result (`none` models
the `ValueError` of `PollRequest.parse_from_text`), and whether
`VotingService.create_poll` succeeds. -/
structure NewPollInput where
  isAdmin : Bool
  parsed : Option PollRequestData
  serviceOk : Bool
deriving Repr, DecidableEq

/-- Observable outcome of the new-style `/oylama` command. -/
inductive NewPollOutcome where
  /-- "⏳ Çok fazla istek! Lütfen N saniye sonra tekrar deneyin." -/
  | rateLimited (waitSeconds : Int)
  /-- "🚫 Bu komutu sadece adminler kullanabilir." -/
  | notAdmin
  /-- "Eyvah, oylama formatı biraz karıştı! ..." -/
  | invalidFormat
  /-- `voting_service.create_poll` ran: the poll was persisted. -/
  | created (req : PollRequestData)
  /-- "Oylama oluşturulurken bir hata oluştu..." -/
  | createError
deriving Repr, DecidableEq

/-- `handle_poll_command` (src/handlers/poll_handler.py): the rate-limit
check comes first — before the admin check, before format validation and
before any persistence; a denial returns immediately with the wait-time
message. -/
def poll_handler_command (rl : RateLimiter) (inp : NewPollInput)
    (userId : String) (now : Int) : RateLimiter × NewPollOutcome :=
  match is_allowed rl userId now with
  | (rl1, false, w) => (rl1, .rateLimited (w.getD 0))
  | (rl1, true, _) =>
      if !inp.isAdmin then (rl1, .notAdmin)
      else
        match inp.parsed with
        | none => (rl1, .invalidFormat)
        | some req =>
            if inp.serviceOk then (rl1, .created req)
            else (rl1, .createError)

/-! ## Concrete fixtures -/

/-- A two-option open poll with id 1 under message timestamp `"ts1"`,
with no votes yet. -/
def pollFixture : BotDB :=
  ⟨[⟨1, "C", "ts1", "adm", "Konu", ["A", "B"], 1000, true⟩], [], 2⟩

/-- An empty scheduler. -/
def schedFixture : SchedState := ⟨[]⟩

/-- A closure environment with an empty conversation history and a
configured admin channel. -/
def cenvFixture : CloseEnv := ⟨true, [], "ozet", some "ADM"⟩

/-- A service state holding one active match (id 1) between `"B"` and
`"A"` in channel `"DM1"`. -/
def matchStFixture : CoffeeState :=
  ⟨[], [], [], [], [⟨1, "DM1", "B", "A", "active", none⟩], 2, [], [], []⟩

/-- An empty database. -/
def emptyDB : BotDB := ⟨[], [], 1⟩

/-- A service state with user `"A"` alone in the waiting pool, with their
timeout job scheduled. -/
def waitingStFixture : CoffeeState :=
  ⟨["A"], [("A", 0)], [("A", "coffee_timeout_A")], ["coffee_timeout_A"],
    [], 0, [], [], []⟩

/-- External collaborators all succeed; the new conversation is `"DM1"`. -/
def envOkFixture : CoffeeEnv := ⟨true, true, "DM1"⟩

/-- Opening the conversation fails. -/
def envFailFixture : CoffeeEnv := ⟨false, true, "DM1"⟩

/-- The pool invariant of §3/§8: no user id occurs twice in the waiting
pool, and every Match row ever created pairs two distinct users. -/
def CoffeeInv (st : CoffeeState) : Prop :=
  st.waitingPool.Nodup ∧ ∀ m ∈ st.matchRows, m.user1 ≠ m.user2

/-- A rate limiter allowing 1 request per 60 seconds, with one recorded
request by `"u"` at time 0. -/
def rlFixture : RateLimiter := ⟨1, 60, [("u", [0])]⟩

/-- The two-option poll with votes `A→0, B→0, Cc→1`. -/
def dbThreeFixture : BotDB :=
  ⟨[⟨1, "C", "ts1", "adm", "Konu", ["A", "B"], 1000, true⟩],
    [⟨1, "UA", 0⟩, ⟨1, "UB", 0⟩, ⟨1, "UCc", 1⟩], 2⟩

/-- The two-option poll with votes `A→0, B→1` (a tie). -/
def dbTieFixture : BotDB :=
  ⟨[⟨1, "C", "ts1", "adm", "Konu", ["A", "B"], 1000, true⟩],
    [⟨1, "UA", 0⟩, ⟨1, "UB", 1⟩], 2⟩

/-! ## Supporting lemmas -/

theorem lookupAssoc_set_self {α : Type} (m : List (String × α)) (k : String)
    (v : α) : lookupAssoc (setAssoc m k v) k = some v := by
  induction m with
  | nil => simp [setAssoc, lookupAssoc]
  | cons e m ih =>
      by_cases h : e.1 = k
      · simpa [setAssoc, List.filter_cons, h] using ih
      · simpa [setAssoc, List.filter_cons, h, lookupAssoc] using ih

theorem lookupAssoc_set_other {α : Type} (m : List (String × α))
    (k k' : String) (v : α) (h : k' ≠ k) :
    lookupAssoc (setAssoc m k v) k' = lookupAssoc m k' := by
  induction m with
  | nil => simp [setAssoc, lookupAssoc, Ne.symm h]
  | cons e m ih =>
      by_cases he : e.1 = k
      · have hne : e.1 ≠ k' := by rw [he]; exact Ne.symm h
        simpa [setAssoc, List.filter_cons, he, lookupAssoc, hne, h,
          Ne.symm h] using ih
      · by_cases he' : e.1 = k'
        · simp [setAssoc, List.filter_cons, he, lookupAssoc, he', h,
            Ne.symm h]
        · simpa [setAssoc, List.filter_cons, he, lookupAssoc, he', h,
            Ne.symm h] using ih

theorem lookupAssoc_del_self {α : Type} (m : List (String × α)) (k : String) :
    lookupAssoc (delAssoc m k) k = none := by
  induction m with
  | nil => simp [delAssoc, lookupAssoc]
  | cons e m ih =>
      by_cases h : e.1 = k
      · simpa [delAssoc, List.filter_cons, h] using ih
      · simpa [delAssoc, List.filter_cons, h, lookupAssoc] using ih

theorem lookupAssoc_del_other {α : Type} (m : List (String × α))
    (k k' : String) (h : k' ≠ k) :
    lookupAssoc (delAssoc m k) k' = lookupAssoc m k' := by
  induction m with
  | nil => simp [delAssoc]
  | cons e m ih =>
      by_cases he : e.1 = k
      · have hne : e.1 ≠ k' := by rw [he]; exact Ne.symm h
        simpa [delAssoc, List.filter_cons, he, lookupAssoc, hne, h,
          Ne.symm h] using ih
      · by_cases he' : e.1 = k'
        · simp [delAssoc, List.filter_cons, he, lookupAssoc, he', h,
            Ne.symm h]
        · simpa [delAssoc, List.filter_cons, he, lookupAssoc, he', h,
            Ne.symm h] using ih

theorem votes_filter_key_of_filter_not (l : List VoteRec) (pid : Nat)
    (u : String) :
    ((l.filter (fun v => ¬(v.pollId = pid ∧ v.userId = u))).filter
      (fun v => v.pollId = pid ∧ v.userId = u)) = [] := by
  rw [List.filter_eq_nil_iff]
  intro v hv
  have h2 := List.of_mem_filter hv
  simp only [decide_eq_true_eq] at h2 ⊢
  exact h2

theorem get_poll_by_ts_add_vote (db : BotDB) (pid : Nat) (u : String)
    (i : Int) (ts : String) :
    get_poll_by_ts (add_vote db pid u i) ts = get_poll_by_ts db ts := rfl

theorem has_user_voted_add_vote_self (db : BotDB) (pid : Nat) (u : String)
    (i : Int) : has_user_voted (add_vote db pid u i) pid u = true := by
  simp [has_user_voted, add_vote]

/-! ## Claim C1 -/

/-- Claim C1 as stated is false at a concrete input: on the open
two-option poll, user `"u"` votes option 0 and then option 1; the second
vote is rejected with the already-voted message and the single stored
vote still carries option 0, not 1.  (The handler's `has_user_voted`
guard fires before the upsert `add_vote` can replace anything.) -/
theorem C1_upsert_claim_false :
    (handle_vote_action (handle_vote_action pollFixture "ts1" "u" 0).1
        "ts1" "u" 1).2 = .alreadyVoted ∧
    (handle_vote_action (handle_vote_action pollFixture "ts1" "u" 0).1
        "ts1" "u" 1).1.votes = [⟨1, "u", 0⟩] ∧
    (0 : Int) ≠ 1 := by
  decide

/-- Claim C1 amended: casting `(p, u, i)` then `(p, u, j)` while `p` stays
open leaves exactly one stored vote for `u` on `p`, but its chosen option
is `i`: the handler rejects the second interaction with the already-voted
message and leaves the database unchanged, so only the first choice
counts.  (Only the storage-layer `add_vote`, taken alone, is an upsert.) -/
theorem C1_second_vote_rejected (db : BotDB) (ts u : String) (i j : Int)
    (p : PollRec) (hfind : get_poll_by_ts db ts = some p)
    (hact : p.isActive = true)
    (hnv : has_user_voted db p.id u = false) :
    (handle_vote_action (handle_vote_action db ts u i).1 ts u j).2 =
      .alreadyVoted ∧
    (handle_vote_action (handle_vote_action db ts u i).1 ts u j).1 =
      (handle_vote_action db ts u i).1 ∧
    (handle_vote_action db ts u i).1.votes.filter
        (fun v => v.pollId = p.id ∧ v.userId = u) = [⟨p.id, u, i⟩] := by
  have h1 : (handle_vote_action db ts u i).1 = add_vote db p.id u i := by
    unfold handle_vote_action
    rw [hfind]
    simp only [hact, Bool.not_true, Bool.false_eq_true, if_false, hnv,
      if_false]
    cases pyGet p.options i <;> rfl
  have h2 : handle_vote_action (add_vote db p.id u i) ts u j =
      (add_vote db p.id u i, .alreadyVoted) := by
    unfold handle_vote_action
    rw [get_poll_by_ts_add_vote, hfind]
    simp [hact, has_user_voted_add_vote_self]
  refine ⟨?_, ?_, ?_⟩
  · rw [h1, h2]
  · rw [h1, h2]
  · rw [h1]
    simp only [add_vote]
    rw [List.filter_append, votes_filter_key_of_filter_not]
    simp

/-- Witness for C1's amended theorem at the concrete fixture. -/
theorem C1_second_vote_rejected_witness :
    (handle_vote_action (handle_vote_action pollFixture "ts1" "u" 0).1
        "ts1" "u" 1).2 = .alreadyVoted ∧
    (handle_vote_action pollFixture "ts1" "u" 0).1.votes.filter
        (fun v => v.pollId = 1 ∧ v.userId = "u") = [⟨1, "u", 0⟩] := by
  have h := C1_second_vote_rejected pollFixture "ts1" "u" 0 1
    ⟨1, "C", "ts1", "adm", "Konu", ["A", "B"], 1000, true⟩
    (by decide) (by decide) (by decide)
  exact ⟨h.1, h.2.2⟩

/-! ## Claim C4 -/

/-- Claim C4 is false at a concrete input: a first vote with option index
2 on the open two-option poll is persisted — the stored vote set changes
from empty to `[⟨1, "u", 2⟩]` even though `2` is outside `[0, 2)` — and
the acknowledgement lookup then raises. -/
theorem C4_range_claim_false :
    pollFixture.votes = [] ∧
    (handle_vote_action pollFixture "ts1" "u" 2).1.votes = [⟨1, "u", 2⟩] ∧
    (handle_vote_action pollFixture "ts1" "u" 2).2 = .ackIndexError := by
  decide

/-- Claim C4 amended: `handle_vote_action` performs no option-index range
validation.  For an open poll and a user with no prior vote, an
interaction whose index is out of range (Python indexing finds no
element) still persists the vote via `add_vote` — the out-of-range index
enters the stored vote set — and only afterwards does building the
acknowledgement raise an `IndexError`. -/
theorem C4_out_of_range_vote_persisted (db : BotDB) (ts u : String)
    (idx : Int) (p : PollRec) (hfind : get_poll_by_ts db ts = some p)
    (hact : p.isActive = true) (hnv : has_user_voted db p.id u = false)
    (hoob : pyGet p.options idx = none) :
    handle_vote_action db ts u idx =
      (add_vote db p.id u idx, .ackIndexError) ∧
    (⟨p.id, u, idx⟩ : VoteRec) ∈ (handle_vote_action db ts u idx).1.votes := by
  have h1 : handle_vote_action db ts u idx =
      (add_vote db p.id u idx, .ackIndexError) := by
    unfold handle_vote_action
    rw [hfind]
    simp only [hact, Bool.not_true, Bool.false_eq_true, if_false, hnv,
      if_false, hoob]
  refine ⟨h1, ?_⟩
  rw [h1]
  simp [add_vote]

/-- Witness for C4's amended theorem at the concrete fixture. -/
theorem C4_out_of_range_vote_persisted_witness :
    handle_vote_action pollFixture "ts1" "u" 2 =
      (add_vote pollFixture 1 "u" 2, .ackIndexError) ∧
    (⟨1, "u", 2⟩ : VoteRec) ∈ (handle_vote_action pollFixture "ts1" "u" 2).1.votes :=
  C4_out_of_range_vote_persisted pollFixture "ts1" "u" 2
    ⟨1, "C", "ts1", "adm", "Konu", ["A", "B"], 1000, true⟩
    (by decide) (by decide) (by decide) (by decide)

/-! ## Claim C3 -/

/-- Claim C3 is false at a concrete input: an admin `/oylama` request with
duration 0 and two options is accepted by the legacy handler — a poll row
is persisted and a closure task is scheduled — although the claim requires
rejection of durations outside `[1, 1440]`.  Likewise a request with 11
options is accepted. -/
theorem C3_bounds_claim_false :
    (handle_poll_command emptyDB schedFixture
        ⟨true, some 0, ["T", "A", "B"]⟩ "C" "adm" "ts9" 0).2.2 =
      .created 1 0 ∧
    (handle_poll_command emptyDB schedFixture
        ⟨true, some 0, ["T", "A", "B"]⟩ "C" "adm" "ts9" 0).1.polls.length = 1 ∧
    (handle_poll_command emptyDB schedFixture
        ⟨true, some 0, ["T", "A", "B"]⟩ "C" "adm" "ts9" 0).2.1.closeJobs =
      [("close_ts9", 0)] ∧
    (handle_poll_command emptyDB schedFixture
        ⟨true, some 10,
          ["T", "o1", "o2", "o3", "o4", "o5", "o6", "o7", "o8", "o9", "o10",
            "o11"]⟩ "C" "adm" "ts9" 0).1.polls.length = 1 := by
  decide

/-- Claim C3 amended: the legacy `/oylama` handler rejects, before any
persistence, a request with fewer than two options or an unparsable
minute token — but only with the generic format message, and it enforces
no other bound: for every parsed duration (including 0 and 1441) and
every content-part list with at least three entries (including one with
11 options), a poll row is persisted and a closure task scheduled. -/
theorem C3_no_bound_validation :
    (∀ (db : BotDB) (sched : SchedState) (inp : PollCmdInput)
        (ch u ts : String) (now : Int),
      inp.isAdmin = true → inp.contentParts.length < 3 →
        handle_poll_command db sched inp ch u ts now =
          (db, sched, .formatError)) ∧
    (∀ (db : BotDB) (sched : SchedState) (ch u ts : String) (now m : Int)
        (t o1 o2 : String) (rest : List String),
      handle_poll_command db sched ⟨true, some m, t :: o1 :: o2 :: rest⟩
          ch u ts now =
        ({ db with
            polls := db.polls ++
              [⟨db.nextPollId, ch, ts, u, t, o1 :: o2 :: rest,
                now + m * 60, true⟩],
            nextPollId := db.nextPollId + 1 },
          schedule_poll_close sched ts m, .created db.nextPollId m)) := by
  constructor
  · intro db sched inp ch u ts now hadm hlen
    unfold handle_poll_command
    cases hm : inp.minutes with
    | none => simp [hadm]
    | some m => simp [hadm, hlen]
  · intro db sched ch u ts now m t o1 o2 rest
    unfold handle_poll_command
    simp [create_poll]

/-- Witness for C3's amended theorem at concrete inputs. -/
theorem C3_no_bound_validation_witness :
    handle_poll_command emptyDB schedFixture ⟨true, some 5, ["T", "A"]⟩
        "C" "adm" "ts9" 0 = (emptyDB, schedFixture, .formatError) ∧
    handle_poll_command emptyDB schedFixture ⟨true, some 1441, ["T", "A", "B"]⟩
        "C" "adm" "ts9" 0 =
      ({ emptyDB with
          polls := emptyDB.polls ++
            [⟨1, "C", "ts9", "adm", "T", ["A", "B"], 1441 * 60, true⟩],
          nextPollId := 2 },
        schedule_poll_close schedFixture "ts9" 1441, .created 1 1441) := by
  constructor
  · exact C3_no_bound_validation.1 emptyDB schedFixture
      ⟨true, some 5, ["T", "A"]⟩ "C" "adm" "ts9" 0 rfl (by decide)
  · have h := C3_no_bound_validation.2 emptyDB schedFixture
      "C" "adm" "ts9" 0 1441 "T" "A" "B" []
    rw [h]
    decide


/-! ## Claim C2 -/

theorem find_pred_map {α : Type} (f : α → α) (p : α → Bool) (l : List α)
    (hf : ∀ a, p (f a) = p a) : (l.map f).find? p = (l.find? p).map f := by
  rw [List.find?_map]
  have h : p ∘ f = p := funext hf
  rw [h]

theorem closeUpd_pred (mid : Nat) (s : String) (m : MatchRec) :
    (decide ((closeUpd mid s m).id = mid)) = (decide (m.id = mid)) := by
  unfold closeUpd
  by_cases h : m.id = mid <;> simp [h]

theorem get_poll_by_ts_close_poll (db : BotDB) (pid : Nat) (ts : String) :
    get_poll_by_ts (close_poll db pid) ts =
      (get_poll_by_ts db ts).map
        (fun p => if p.id = pid then { p with isActive := false } else p) := by
  unfold get_poll_by_ts close_poll
  exact find_pred_map _ _ _
    (fun p => by by_cases h : p.id = pid <;> simp [h])

/-- Every invocation of `close_match` on a state whose repository holds a
row with the requested id (and with history fetch succeeding and an admin
channel configured) sends one more admin report and applies the closed
update to the rows — there is no already-closed guard. -/
theorem close_match_effects (env : CloseEnv) (st : CoffeeState)
    (ch : String) (mid : Nat) (c : String)
    (hok : env.historyOk = true) (hadm : env.adminChannel = some c)
    (hfound : (st.matchRows.find? (fun m => m.id = mid)).isSome) :
    (close_match env st ch mid).adminReports.length =
      st.adminReports.length + 1 ∧
    (close_match env st ch mid).matchRows =
      st.matchRows.map (closeUpd mid (closeSummary env)) := by
  obtain ⟨md, hmd⟩ := Option.isSome_iff_exists.mp hfound
  have hmap : (st.matchRows.map (closeUpd mid (closeSummary env))).find?
      (fun m => decide (m.id = mid)) =
      some (closeUpd mid (closeSummary env) md) := by
    rw [find_pred_map _ _ _ (closeUpd_pred mid _), hmd]
    rfl
  unfold close_match
  rw [hok]
  simp only [Bool.not_true, Bool.false_eq_true, if_false, hadm]
  rw [hmap]
  simp

/-- Claim C2 is false at a concrete input: closing the same active match
twice sends two admin reports (the second invocation repeats the whole
closure instead of detecting the already-closed state). -/
theorem C2_match_close_claim_false :
    matchStFixture.adminReports.length = 0 ∧
    (close_match cenvFixture
        (close_match cenvFixture matchStFixture "DM1" 1) "DM1"
        1).adminReports.length = 2 := by
  decide

/-- Claim C2 amended: `closePoll` is terminally idempotent — the first
`close_poll_task` on an open poll posts exactly one results message and
flips the poll to inactive, and a second invocation is a no-op — but
`close_match` has no already-closed guard: invoking it twice on the same
match sends two admin reports (and applies the closed update twice). -/
theorem C2_closure_idempotence (db : BotDB) (posts : List PollResultPost)
    (ts : String) (p : PollRec) (hfind : get_poll_by_ts db ts = some p)
    (hact : p.isActive = true) (env : CloseEnv) (st : CoffeeState)
    (ch : String) (mid : Nat) (c : String) (hok : env.historyOk = true)
    (hadm : env.adminChannel = some c)
    (hfound : (st.matchRows.find? (fun m => m.id = mid)).isSome) :
    (close_poll_task db posts ts).2.length = posts.length + 1 ∧
    get_poll_by_ts (close_poll_task db posts ts).1 ts =
      some { p with isActive := false } ∧
    close_poll_task (close_poll_task db posts ts).1
        (close_poll_task db posts ts).2 ts = close_poll_task db posts ts ∧
    (close_match env (close_match env st ch mid) ch mid).adminReports.length =
      st.adminReports.length + 2 := by
  have efst : (close_poll_task db posts ts).1 = close_poll db p.id := by
    unfold close_poll_task
    rw [hfind]
    simp [hact]
  have esnd : ∃ q, (close_poll_task db posts ts).2 = posts ++ [q] := by
    unfold close_poll_task
    rw [hfind]
    simp [hact]
  have hclose : get_poll_by_ts (close_poll db p.id) ts =
      some { p with isActive := false } := by
    rw [get_poll_by_ts_close_poll, hfind]
    simp
  have noop : ∀ (db2 : BotDB) (posts2 : List PollResultPost),
      get_poll_by_ts db2 ts = some { p with isActive := false } →
      close_poll_task db2 posts2 ts = (db2, posts2) := by
    intro db2 posts2 h
    unfold close_poll_task
    rw [h]
    simp
  refine ⟨?_, ?_, ?_, ?_⟩
  · obtain ⟨q, hq⟩ := esnd
    rw [hq]
    simp
  · rw [efst]
    exact hclose
  · rw [noop _ _ (by rw [efst]; exact hclose)]
  · have h1 := close_match_effects env st ch mid c hok hadm hfound
    have hf2 : ((close_match env st ch mid).matchRows.find?
        (fun m => m.id = mid)).isSome := by
      rw [h1.2, find_pred_map _ _ _ (closeUpd_pred mid _)]
      obtain ⟨md, hmd⟩ := Option.isSome_iff_exists.mp hfound
      rw [hmd]
      rfl
    have h2 := close_match_effects env (close_match env st ch mid) ch mid c
      hok hadm hf2
    rw [h2.1, h1.1]

/-- Witness for C2's amended theorem at concrete inputs. -/
theorem C2_closure_idempotence_witness :
    (close_poll_task pollFixture [] "ts1").2.length = 1 ∧
    close_poll_task (close_poll_task pollFixture [] "ts1").1
        (close_poll_task pollFixture [] "ts1").2 "ts1" =
      close_poll_task pollFixture [] "ts1" ∧
    (close_match cenvFixture
        (close_match cenvFixture matchStFixture "DM1" 1) "DM1"
        1).adminReports.length = matchStFixture.adminReports.length + 2 := by
  have h := C2_closure_idempotence pollFixture [] "ts1"
    ⟨1, "C", "ts1", "adm", "Konu", ["A", "B"], 1000, true⟩ (by decide)
    (by decide) cenvFixture matchStFixture "DM1" 1 "ADM" (by decide)
    (by decide) (by decide)
  exact ⟨h.1, h.2.2.1, h.2.2.2⟩


/-! ## Claim C5 -/

/-- Claim C5 is false at a concrete input: with `"A"` waiting and the
conversation open failing, `"B"`'s request propagates the error, yet the
pool has gone from `["A"]` to `[]`, `"A"`'s timeout job is cancelled and
no Match row exists — exactly the partial state the claim says cannot
remain. -/
theorem C5_rollback_claim_false :
    waitingStFixture.waitingPool = ["A"] ∧
    (request_coffee envFailFixture waitingStFixture "B" "ch" 10).2 =
      .matchError ∧
    (request_coffee envFailFixture waitingStFixture "B" "ch" 10).1.waitingPool
      = [] ∧
    (request_coffee envFailFixture waitingStFixture "B" "ch" 10).1.matchRows
      = [] ∧
    (request_coffee envFailFixture waitingStFixture "B" "ch" 10).1.cronJobs
      = [] := by
  decide

/-- Claim C5 amended: when opening the conversation or persisting the
Match raises after the partner was taken from the pool, the error is
surfaced (`CemilBotError` escapes `request_coffee`), but the shared state
is NOT rolled back: the partner stays removed from the pool with their
timeout job cancelled and handle deleted, no Match row exists, and the
requester's last-request time remains recorded — the loss is accepted
rather than restored. -/
theorem C5_failure_keeps_partner_removed (env : CoffeeEnv)
    (st : CoffeeState) (u ch : String) (now : Int) (partner j : String)
    (rest : List String) (hpool : st.waitingPool = partner :: rest)
    (hnotin : u ∉ st.waitingPool)
    (hcd : ∀ t, lookupAssoc st.lastRequestTime u = some t → 300 ≤ now - t)
    (hjob : lookupAssoc st.poolTimeoutJobs partner = some j)
    (hfail : env.openConversationOk = false ∨ env.createMatchOk = false) :
    request_coffee env st u ch now =
      ({ st with
          waitingPool := rest,
          lastRequestTime := setAssoc st.lastRequestTime u now,
          cronJobs := st.cronJobs.filter (fun x => x ≠ j),
          poolTimeoutJobs := delAssoc st.poolTimeoutJobs partner },
        .matchError) := by
  have hcan : can_request_coffee st u now = none := by
    unfold can_request_coffee
    cases hl : lookupAssoc st.lastRequestTime u with
    | none => simp [hnotin]
    | some t =>
        have h0 := hcd t hl
        have h1 : ¬(now - t < 300) := by omega
        simp [h1, hnotin]
  have hsm : ∀ st2 : CoffeeState, start_match env st2 u partner = none := by
    intro st2
    unfold start_match
    rcases hfail with h | h
    · rw [h]
      rfl
    · cases henv : env.openConversationOk <;> simp [h, henv]
  unfold request_coffee
  rw [hcan]
  dsimp only
  rw [hpool]
  dsimp only
  rw [hjob, hsm]

/-- Witness for C5's amended theorem at the concrete fixture. -/
theorem C5_failure_keeps_partner_removed_witness :
    request_coffee envFailFixture waitingStFixture "B" "ch" 10 =
      ({ waitingStFixture with
          waitingPool := [],
          lastRequestTime := setAssoc waitingStFixture.lastRequestTime "B" 10,
          cronJobs := waitingStFixture.cronJobs.filter
            (fun x => x ≠ "coffee_timeout_A"),
          poolTimeoutJobs := delAssoc waitingStFixture.poolTimeoutJobs "A" },
        .matchError) :=
  C5_failure_keeps_partner_removed envFailFixture waitingStFixture "B" "ch"
    10 "A" "coffee_timeout_A" [] (by decide) (by decide)
    (by intro t ht; simp [waitingStFixture, lookupAssoc] at ht)
    (by decide) (Or.inl (by decide))


/-! ## Claim C6 -/

theorem request_not_cooldown_of_can_none (env : CoffeeEnv)
    (st : CoffeeState) (u ch : String) (now : Int)
    (h : can_request_coffee st u now = none) (r : Int) :
    (request_coffee env st u ch now).2 ≠ .cooldownRejected r := by
  unfold request_coffee
  rw [h]
  dsimp only
  split
  · split <;> simp
  · simp

/-- Claim C6: a request strictly less than 5 minutes after the user's
last recorded request is rejected with a cooldown message whose remaining
minutes equal the ceiling of the remaining time (hence never 0), leaving
the state untouched; a request 5 minutes or later is never rejected by
the cooldown; and the spec's scenario holds: a request at t = 0 enters
the pool, at t = 60 s it is rejected with 4 minutes remaining, and after
the 5-minute timeout a request at t = 360 s enters the pool again. -/
theorem C6_cooldown_enforcement :
    (∀ (env : CoffeeEnv) (st : CoffeeState) (u ch : String) (now t : Int),
      lookupAssoc st.lastRequestTime u = some t → 0 ≤ now - t →
      now - t < 300 →
      request_coffee env st u ch now =
        (st, .cooldownRejected (5 - intTrunc (now - t) 60)) ∧
      60 * ((5 - intTrunc (now - t) 60) - 1) < 300 - (now - t) ∧
      300 - (now - t) ≤ 60 * (5 - intTrunc (now - t) 60) ∧
      1 ≤ 5 - intTrunc (now - t) 60) ∧
    (∀ (env : CoffeeEnv) (st : CoffeeState) (u ch : String) (now t r : Int),
      lookupAssoc st.lastRequestTime u = some t → 300 ≤ now - t →
      (request_coffee env st u ch now).2 ≠ .cooldownRejected r) ∧
    ((request_coffee envOkFixture coffeeInit "A" "ch" 0).2 = .waiting ∧
      (request_coffee envOkFixture
        (request_coffee envOkFixture coffeeInit "A" "ch" 0).1
        "A" "ch" 60).2 = .cooldownRejected 4 ∧
      (request_coffee envOkFixture
        (timeout_user
          (request_coffee envOkFixture coffeeInit "A" "ch" 0).1 "A")
        "A" "ch" 360).2 = .waiting) := by
  refine ⟨?_, ?_, by decide⟩
  · intro env st u ch now t hl h0 h3
    have hcan : can_request_coffee st u now =
        some (.cooldownRejected (5 - intTrunc (now - t) 60)) := by
      unfold can_request_coffee
      rw [hl]
      simp [h3]
    have htr : intTrunc (now - t) 60 = (((now - t).toNat / 60 : Nat) : Int) := by
      unfold intTrunc
      rw [if_pos h0]
      rfl
    refine ⟨?_, ?_, ?_, ?_⟩
    · unfold request_coffee
      rw [hcan]
    · rw [htr]; omega
    · rw [htr]; omega
    · rw [htr]; omega
  · intro env st u ch now t r hl h300
    have h1 : ¬(now - t < 300) := by omega
    by_cases hm : u ∈ st.waitingPool
    · have hcan : can_request_coffee st u now = some .alreadyWaiting := by
        unfold can_request_coffee
        rw [hl]
        simp [h1, hm]
      unfold request_coffee
      rw [hcan]
      simp
    · have hcan : can_request_coffee st u now = none := by
        unfold can_request_coffee
        rw [hl]
        simp [h1, hm]
      exact request_not_cooldown_of_can_none env st u ch now hcan r

/-- Witness for C6 at concrete inputs. -/
theorem C6_cooldown_enforcement_witness :
    request_coffee envOkFixture waitingStFixture "A" "ch" 60 =
      (waitingStFixture, .cooldownRejected 4) ∧
    (request_coffee envOkFixture waitingStFixture "A" "ch" 360).2 ≠
      .cooldownRejected 1 := by
  constructor
  · have h := (C6_cooldown_enforcement.1 envOkFixture waitingStFixture
      "A" "ch" 60 0 (by decide) (by decide) (by decide)).1
    simpa using h
  · exact C6_cooldown_enforcement.2.1 envOkFixture waitingStFixture
      "A" "ch" 360 0 1 (by decide) (by decide)


/-! ## Claim C7 -/

/-- Claim C7: when `A` is the earliest-inserted waiter and a distinct
user `B` (not cooling down, not pooled) requests a match with the
collaborators succeeding, `A` — not any later waiter — is popped, `A`'s
timeout job is cancelled and its handle removed, a Match between `B` and
`A` is persisted with the closure job scheduled, and a subsequent
synthetic firing of `A`'s timeout is a complete no-op. -/
theorem C7_matching_correctness (env : CoffeeEnv) (st : CoffeeState)
    (A B ch : String) (now : Int) (rest : List String) (j : String)
    (hpool : st.waitingPool = A :: rest) (hA : A ∉ rest)
    (hB : B ∉ st.waitingPool)
    (hcd : ∀ t, lookupAssoc st.lastRequestTime B = some t → 300 ≤ now - t)
    (hjob : lookupAssoc st.poolTimeoutJobs A = some j)
    (hopen : env.openConversationOk = true)
    (hcreate : env.createMatchOk = true) :
    request_coffee env st B ch now =
      ({ st with
          waitingPool := rest,
          lastRequestTime := setAssoc st.lastRequestTime B now,
          cronJobs := (st.cronJobs.filter (fun x => x ≠ j)) ++
            ["close_match_" ++ env.newChannelId],
          poolTimeoutJobs := delAssoc st.poolTimeoutJobs A,
          matchRows := st.matchRows ++
            [⟨st.nextMatchId, env.newChannelId, B, A, "active", none⟩],
          nextMatchId := st.nextMatchId + 1 },
        .matched A) ∧
    timeout_user (request_coffee env st B ch now).1 A =
      (request_coffee env st B ch now).1 := by
  have hcan : can_request_coffee st B now = none := by
    unfold can_request_coffee
    cases hl : lookupAssoc st.lastRequestTime B with
    | none => simp [hB]
    | some t =>
        have h0 := hcd t hl
        have h1 : ¬(now - t < 300) := by omega
        simp [h1, hB]
  have hsm : ∀ st2 : CoffeeState, start_match env st2 B A =
      some { st2 with
        matchRows := st2.matchRows ++
          [⟨st2.nextMatchId, env.newChannelId, B, A, "active", none⟩],
        nextMatchId := st2.nextMatchId + 1,
        cronJobs := st2.cronJobs ++ ["close_match_" ++ env.newChannelId] } := by
    intro st2
    unfold start_match
    rw [hopen, hcreate]
    rfl
  have emain : request_coffee env st B ch now =
      ({ st with
          waitingPool := rest,
          lastRequestTime := setAssoc st.lastRequestTime B now,
          cronJobs := (st.cronJobs.filter (fun x => x ≠ j)) ++
            ["close_match_" ++ env.newChannelId],
          poolTimeoutJobs := delAssoc st.poolTimeoutJobs A,
          matchRows := st.matchRows ++
            [⟨st.nextMatchId, env.newChannelId, B, A, "active", none⟩],
          nextMatchId := st.nextMatchId + 1 },
        .matched A) := by
    unfold request_coffee
    rw [hcan]
    dsimp only
    rw [hpool]
    dsimp only
    rw [hjob, hsm]
  refine ⟨emain, ?_⟩
  rw [emain]
  unfold timeout_user
  simp [hA, lookupAssoc_del_self]

/-- Witness for C7 at the concrete fixture. -/
theorem C7_matching_correctness_witness :
    request_coffee envOkFixture waitingStFixture "B" "ch" 7 =
      ({ waitingStFixture with
          waitingPool := [],
          lastRequestTime := setAssoc waitingStFixture.lastRequestTime "B" 7,
          cronJobs := (waitingStFixture.cronJobs.filter
            (fun x => x ≠ "coffee_timeout_A")) ++ ["close_match_" ++ "DM1"],
          poolTimeoutJobs := delAssoc waitingStFixture.poolTimeoutJobs "A",
          matchRows := waitingStFixture.matchRows ++
            [⟨waitingStFixture.nextMatchId, "DM1", "B", "A", "active", none⟩],
          nextMatchId := waitingStFixture.nextMatchId + 1 },
        .matched "A") ∧
    timeout_user (request_coffee envOkFixture waitingStFixture "B" "ch" 7).1
        "A" =
      (request_coffee envOkFixture waitingStFixture "B" "ch" 7).1 := by
  have h := C7_matching_correctness envOkFixture waitingStFixture "A" "B"
    "ch" 7 [] "coffee_timeout_A" (by decide) (by decide) (by decide)
    (by intro t ht; simp [waitingStFixture, lookupAssoc] at ht)
    (by decide) (by decide) (by decide)
  exact h


/-! ## Claim C8 -/

theorem can_none_not_mem (st : CoffeeState) (u : String) (now : Int)
    (h : can_request_coffee st u now = none) : u ∉ st.waitingPool := by
  intro hm
  unfold can_request_coffee at h
  split at h <;> (try split at h) <;> simp_all

theorem start_match_fields (env : CoffeeEnv) (st2 st4 : CoffeeState)
    (u1 u2 : String) (hsm : start_match env st2 u1 u2 = some st4) :
    st4.waitingPool = st2.waitingPool ∧
    st4.matchRows = st2.matchRows ++
      [⟨st2.nextMatchId, env.newChannelId, u1, u2, "active", none⟩] := by
  unfold start_match at hsm
  by_cases h1 : env.openConversationOk = true
  · by_cases h2 : env.createMatchOk = true
    · rw [h1, h2] at hsm
      simp only [Bool.not_true, Bool.false_eq_true, if_false,
        Option.some.injEq] at hsm
      subst hsm
      exact ⟨rfl, rfl⟩
    · rw [h1] at hsm
      simp [h2] at hsm
  · simp [h1] at hsm

theorem coffee_step_inv (st : CoffeeState) (op : CoffeeOp)
    (h : CoffeeInv st) : CoffeeInv (coffeeStep st op) := by
  obtain ⟨hnd, hmm⟩ := h
  cases op with
  | timeout u =>
      unfold coffeeStep timeout_user
      dsimp only
      by_cases h1 : u ∈ st.waitingPool
      · simp only [h1, if_true]
        split <;> exact ⟨hnd.erase _, hmm⟩
      · simp only [h1, if_false]
        split <;> exact ⟨hnd, hmm⟩
  | request env u ch now =>
      unfold coffeeStep
      dsimp only
      cases hcan : can_request_coffee st u now with
      | some o =>
          have e : request_coffee env st u ch now = (st, o) := by
            unfold request_coffee
            rw [hcan]
          rw [e]
          exact ⟨hnd, hmm⟩
      | none =>
          have hu : u ∉ st.waitingPool := can_none_not_mem st u now hcan
          unfold request_coffee
          rw [hcan]
          dsimp only
          cases hp : st.waitingPool with
          | nil =>
              dsimp only
              exact ⟨List.nodup_singleton u, hmm⟩
          | cons partner rest =>
              have hpartner : partner ∈ st.waitingPool := by
                rw [hp]
                exact List.mem_cons_self _ _
              have hne : u ≠ partner := fun he => hu (he ▸ hpartner)
              have hndrest : rest.Nodup := by
                rw [hp] at hnd
                exact (List.nodup_cons.mp hnd).2
              dsimp only
              cases hj : lookupAssoc st.poolTimeoutJobs partner with
              | some jobId =>
                  dsimp only
                  cases hsm : start_match env
                      { st with
                        waitingPool := rest,
                        lastRequestTime := setAssoc st.lastRequestTime u now,
                        poolTimeoutJobs :=
                          delAssoc st.poolTimeoutJobs partner,
                        cronJobs :=
                          st.cronJobs.filter (fun j => j ≠ jobId) }
                      u partner with
                  | none =>
                      exact ⟨hndrest, hmm⟩
                  | some st4 =>
                      dsimp only
                      obtain ⟨e1, e2⟩ := start_match_fields _ _ _ _ _ hsm
                      constructor
                      · rw [e1]
                        exact hndrest
                      · intro m hm
                        rw [e2] at hm
                        rcases List.mem_append.mp hm with hmo | hmn
                        · exact hmm m hmo
                        · rcases List.mem_singleton.mp hmn with rfl
                          exact hne
              | none =>
                  dsimp only
                  cases hsm : start_match env
                      { st with
                        waitingPool := rest,
                        lastRequestTime := setAssoc st.lastRequestTime u now }
                      u partner with
                  | none =>
                      exact ⟨hndrest, hmm⟩
                  | some st4 =>
                      dsimp only
                      obtain ⟨e1, e2⟩ := start_match_fields _ _ _ _ _ hsm
                      constructor
                      · rw [e1]
                        exact hndrest
                      · intro m hm
                        rw [e2] at hm
                        rcases List.mem_append.mp hm with hmo | hmn
                        · exact hmm m hmo
                        · rcases List.mem_singleton.mp hmn with rfl
                          exact hne

/-- Claim C8: every sequence of `requestMatch` and `expireWaitingUser`
operations preserves the invariant that no user id occurs twice in the
waiting pool and that every Match row pairs two distinct users — a user
already pooled is rejected before they could be paired with their own
entry. -/
theorem C8_pool_invariant (st : CoffeeState) (ops : List CoffeeOp)
    (h : CoffeeInv st) : CoffeeInv (coffeeRun st ops) := by
  induction ops generalizing st with
  | nil => exact h
  | cons op ops ih => exact ih _ (coffee_step_inv st op h)

/-- Witness for C8 on a concrete operation sequence from the empty
state. -/
theorem C8_pool_invariant_witness :
    CoffeeInv (coffeeRun coffeeInit
      [.request envOkFixture "A" "ch" 0, .request envOkFixture "B" "ch" 10,
        .timeout "A", .request envFailFixture "Cc" "ch" 400]) :=
  C8_pool_invariant coffeeInit _ ⟨List.nodup_nil, by intro m hm; cases hm⟩


/-! ## Claim C10 -/

theorem getRequests_set_self (rl : RateLimiter) (u : String)
    (l : List Int) : (rl.setRequests u l).getRequests u = l := by
  unfold RateLimiter.getRequests RateLimiter.setRequests
  rw [lookupAssoc_set_self]
  rfl

theorem getRequests_set_other (rl : RateLimiter) (u v : String)
    (l : List Int) (h : v ≠ u) :
    (rl.setRequests u l).getRequests v = rl.getRequests v := by
  unfold RateLimiter.getRequests RateLimiter.setRequests
  rw [lookupAssoc_set_other _ _ _ _ h]

/-- Claim C10: `RateLimiter.is_allowed` allows exactly when strictly
fewer than `max_requests` previously-allowed calls by that user fall
within the last `window_seconds`; an allowed call is recorded while a
denied call is not (denials never extend the wait) and other users'
records are untouched; and a denied `/oylama` command is rejected with
the wait-time message before the admin check, format validation or any
persistence, whatever those would have said. -/
theorem C10_rate_limit_gate (rl : RateLimiter) (u : String) (now : Int) :
    ((is_allowed rl u now).2.1 = true ↔
      ((rl.getRequests u).filter
        (fun t => now - rl.windowSeconds < t)).length < rl.maxRequests) ∧
    ((is_allowed rl u now).2.1 = true →
      (is_allowed rl u now).1.getRequests u =
        ((rl.getRequests u).filter
          (fun t => now - rl.windowSeconds < t)) ++ [now]) ∧
    ((is_allowed rl u now).2.1 = false →
      (is_allowed rl u now).1.getRequests u =
        (rl.getRequests u).filter
          (fun t => now - rl.windowSeconds < t)) ∧
    (∀ v, v ≠ u →
      (is_allowed rl u now).1.getRequests v = rl.getRequests v) ∧
    ((is_allowed rl u now).2.1 = false → ∀ inp : NewPollInput, ∃ w,
      poll_handler_command rl inp u now =
        ((is_allowed rl u now).1, .rateLimited w)) := by
  by_cases hcap : rl.maxRequests ≤
      ((rl.getRequests u).filter
        (fun t => now - rl.windowSeconds < t)).length
  · have e : is_allowed rl u now =
        (rl.setRequests u
          ((rl.getRequests u).filter
            (fun t => now - rl.windowSeconds < t)),
          false,
          some ((((rl.getRequests u).filter
            (fun t => now - rl.windowSeconds < t)).min?.getD now) +
              rl.windowSeconds - now)) := by
      unfold is_allowed
      rw [if_pos hcap]
    refine ⟨?_, ?_, ?_, ?_, ?_⟩
    · rw [e]
      simp
      omega
    · rw [e]
      intro hcon
      simp at hcon
    · rw [e]
      intro hf
      exact getRequests_set_self _ _ _
    · intro v hv
      rw [e]
      exact getRequests_set_other _ _ _ _ hv
    · intro hf inp
      refine ⟨(((rl.getRequests u).filter
          (fun t => now - rl.windowSeconds < t)).min?.getD now) +
            rl.windowSeconds - now, ?_⟩
      unfold poll_handler_command
      rw [e]
      rfl
  · have e : is_allowed rl u now =
        (rl.setRequests u
          (((rl.getRequests u).filter
            (fun t => now - rl.windowSeconds < t)) ++ [now]),
          true, none) := by
      unfold is_allowed
      rw [if_neg hcap]
    refine ⟨?_, ?_, ?_, ?_, ?_⟩
    · rw [e]
      simp
      omega
    · rw [e]
      intro ht
      exact getRequests_set_self _ _ _
    · rw [e]
      intro hcon
      simp at hcon
    · intro v hv
      rw [e]
      exact getRequests_set_other _ _ _ _ hv
    · rw [e]
      intro hcon
      simp at hcon

/-- Witness for C10 at a concrete limiter state. -/
theorem C10_rate_limit_gate_witness :
    ((is_allowed rlFixture "u" 30).2.1 = true ↔
      ((rlFixture.getRequests "u").filter (fun t => 30 - 60 < t)).length
        < 1) ∧
    (is_allowed rlFixture "u" 30).1.getRequests "u" = [0] ∧
    (is_allowed rlFixture "u" 30).1.getRequests "v" =
      rlFixture.getRequests "v" ∧
    (∃ w, poll_handler_command rlFixture ⟨true, none, true⟩ "u" 30 =
      ((is_allowed rlFixture "u" 30).1, .rateLimited w)) := by
  have h := C10_rate_limit_gate rlFixture "u" 30
  refine ⟨h.1, ?_, ?_, ?_⟩
  · have h2 := h.2.2.1 (by decide)
    rw [h2]
    decide
  · exact h.2.2.2.1 "v" (by decide)
  · exact h.2.2.2.2 (by decide) ⟨true, none, true⟩


/-! ## Claim C9 -/

theorem maxCount_cons (results : Int → Nat) (x : Nat × String)
    (l : List (Nat × String)) :
    maxCount results (x :: l) =
      max ((results (x.1 : Int) : Nat) : Int) (maxCount results l) := rfl

theorem winnersOf_cons (results : Int → Nat) (m : Int) (x : Nat × String)
    (l : List (Nat × String)) :
    winnersOf results m (x :: l) =
      if ((results (x.1 : Int) : Nat) : Int) = m
      then x.2 :: winnersOf results m l
      else winnersOf results m l := by
  unfold winnersOf
  rw [List.filter_cons]
  by_cases h : ((results (x.1 : Int) : Nat) : Int) = m
  · simp [h]
  · simp [h]

/-- Characterization of the winner-determination fold from any
accumulator with a non-negative running maximum. -/
theorem tally_fold (results : Int → Nat) (l : List (Nat × String)) :
    ∀ (m : Int) (w : List String), 0 ≤ m →
    l.foldl (tallyStep results) (m, w) =
      (max m (maxCount results l),
        if m < maxCount results l
        then winnersOf results (maxCount results l) l
        else w ++ (if 0 < m then winnersOf results m l else [])) := by
  induction l with
  | nil =>
      intro m w hm
      have h1 : max m (-1) = m := max_eq_left (by omega)
      have h2 : ¬ m < (-1 : Int) := by omega
      simp [maxCount, winnersOf, h1, h2]
  | cons x l ih =>
      intro m w hm
      rw [List.foldl_cons, maxCount_cons]
      obtain ⟨c, hc⟩ : ∃ c : Int, ((results (x.1 : Int) : Nat) : Int) = c :=
        ⟨_, rfl⟩
      have hc0 : 0 ≤ c := hc ▸ Int.natCast_nonneg _
      rw [hc]
      have estep : tallyStep results (m, w) x =
          (if m < c then (c, [x.2])
            else if c = m ∧ 0 < c then (m, w ++ [x.2]) else (m, w)) := by
        unfold tallyStep
        rw [hc]
      have ewin : ∀ M : Int, winnersOf results M (x :: l) =
          if c = M then x.2 :: winnersOf results M l
          else winnersOf results M l := by
        intro M
        rw [winnersOf_cons, hc]
      rw [estep]
      by_cases hmc : m < c
      · rw [if_pos hmc, ih c [x.2] hc0]
        by_cases hcl : c < maxCount results l
        · rw [if_pos hcl, max_eq_right (le_of_lt hcl),
            max_eq_right (by omega : m ≤ maxCount results l),
            if_pos (by omega : m < maxCount results l), ewin,
            if_neg (by omega : ¬ c = maxCount results l)]
        · rw [if_neg hcl, max_eq_left (by omega : maxCount results l ≤ c),
            max_eq_right (le_of_lt hmc), if_pos hmc,
            if_pos (by omega : (0:Int) < c), ewin, if_pos rfl,
            List.singleton_append]
      · rw [if_neg hmc]
        by_cases hcm : c = m ∧ 0 < c
        · obtain ⟨hceq, h0c⟩ := hcm
          subst hceq
          rw [if_pos ⟨rfl, h0c⟩, ih c (w ++ [x.2]) hm]
          have efst : max c (max c (maxCount results l)) =
              max c (maxCount results l) := by omega
          rw [efst]
          by_cases hml : c < maxCount results l
          · rw [if_pos hml,
              if_pos (by omega : c < max c (maxCount results l)),
              max_eq_right (by omega : c ≤ maxCount results l), ewin,
              if_neg (by omega : ¬ c = maxCount results l)]
          · rw [if_neg hml,
              if_neg (by omega : ¬ c < max c (maxCount results l)),
              if_pos h0c, if_pos h0c, ewin, if_pos rfl,
              List.append_assoc, List.singleton_append]
        · rw [if_neg hcm, ih m w hm]
          have hcle : c ≤ m := by omega
          have efst : max m (max c (maxCount results l)) =
              max m (maxCount results l) := by omega
          rw [efst]
          by_cases hml : m < maxCount results l
          · rw [if_pos hml,
              if_pos (by omega : m < max c (maxCount results l))]
            have e2 : max c (maxCount results l) = maxCount results l := by
              omega
            rw [e2, ewin, if_neg (by omega : ¬ c = maxCount results l)]
          · rw [if_neg hml,
              if_neg (by omega : ¬ m < max c (maxCount results l))]
            by_cases h0m : 0 < m
            · have hcm2 : ¬ c = m := by
                intro he
                exact hcm ⟨he, by omega⟩
              rw [if_pos h0m, if_pos h0m, ewin, if_neg hcm2]
            · rw [if_neg h0m, if_neg h0m]

theorem tallyStep_init (results : Int → Nat) (x : Nat × String) :
    tallyStep results (-1, []) x =
      (((results (x.1 : Int) : Nat) : Int), [x.2]) := by
  have h : ((-1 : Int) < ((results (x.1 : Int) : Nat) : Int)) := by
    have := Int.natCast_nonneg (results (x.1 : Int))
    omega
  unfold tallyStep
  dsimp only
  rw [if_pos h]

theorem tally_loop_norm (results : Int → Nat) (x : Nat × String)
    (E : List (Nat × String)) :
    ((x :: E).foldl (tallyStep results) (-1, [])).1 =
      maxCount results (x :: E) ∧
    (0 < maxCount results (x :: E) →
      ((x :: E).foldl (tallyStep results) (-1, [])).2 =
        winnersOf results (maxCount results (x :: E)) (x :: E)) := by
  rw [List.foldl_cons, tallyStep_init,
    tally_fold results E _ _ (Int.natCast_nonneg _), maxCount_cons]
  constructor
  · rfl
  · intro hpos
    rw [winnersOf_cons]
    by_cases hcl : ((results (x.1 : Int) : Nat) : Int) < maxCount results E
    · rw [if_pos hcl, max_eq_right (le_of_lt hcl),
        if_neg (by omega :
          ¬ ((results (x.1 : Int) : Nat) : Int) = maxCount results E)]
    · have hKC : maxCount results E ≤ ((results (x.1 : Int) : Nat) : Int) :=
        by omega
      rw [max_eq_left hKC] at hpos ⊢
      rw [if_neg hcl, if_pos hpos, if_pos rfl, List.singleton_append]

theorem tallyLoop_spec (results : Int → Nat) (options : List String)
    (hne : options ≠ []) :
    (tallyLoop results options).1 = maxCount results options.enum ∧
    (0 < maxCount results options.enum →
      (tallyLoop results options).2 =
        winnersOf results (maxCount results options.enum) options.enum) := by
  obtain ⟨o, os, rfl⟩ := List.exists_cons_of_ne_nil hne
  have henum : (o :: os).enum = (0, o) :: os.enumFrom 1 := rfl
  unfold tallyLoop
  rw [henum]
  exact tally_loop_norm results (0, o) (os.enumFrom 1)

theorem maxCount_nonpos_iff (results : Int → Nat)
    (l : List (Nat × String)) :
    maxCount results l ≤ 0 ↔ ∀ x ∈ l, results (x.1 : Int) = 0 := by
  induction l with
  | nil => simp [maxCount]
  | cons x l ih =>
      rw [maxCount_cons]
      constructor
      · intro h y hy
        rcases List.mem_cons.mp hy with rfl | hyl
        · omega
        · exact ih.mp (by omega) y hyl
      · intro h
        have h1 : results (x.1 : Int) = 0 := h x (List.mem_cons_self _ _)
        have h2 : maxCount results l ≤ 0 :=
          ih.mpr (fun y hy => h y (List.mem_cons.mpr (Or.inr hy)))
        omega

/-- Claim C9: closing an open poll posts one results message whose
per-option counts are exactly the numbers of stored votes per option
index (0 when none); when the maximum count is positive the winner line
lists exactly the options attaining that maximum (all of them on a tie),
and when every listed option's count is zero — in particular when no
votes were cast — no winner is named and the "no votes" sentinel is
reported instead. -/
theorem C9_tally_correctness (db : BotDB) (posts : List PollResultPost)
    (ts : String) (p : PollRec) (hfind : get_poll_by_ts db ts = some p)
    (hact : p.isActive = true) (hne : p.options ≠ []) :
    (∀ i : Int, get_poll_results db p.id i =
      (db.votes.filter (fun v =>
        v.pollId = p.id && v.optionIndex = i)).length) ∧
    close_poll_task db posts ts =
      (close_poll db p.id,
        posts ++
          [⟨p.channelId, p.topic,
            p.options.enum.map (fun x =>
              get_poll_results db p.id (x.1 : Int)),
            if 0 < maxCount (get_poll_results db p.id) p.options.enum
            then some (winnersOf (get_poll_results db p.id)
              (maxCount (get_poll_results db p.id) p.options.enum)
              p.options.enum)
            else none⟩]) ∧
    (maxCount (get_poll_results db p.id) p.options.enum ≤ 0 ↔
      ∀ x ∈ p.options.enum, get_poll_results db p.id (x.1 : Int) = 0) := by
  obtain ⟨h1, h2⟩ := tallyLoop_spec (get_poll_results db p.id) p.options hne
  refine ⟨fun i => rfl, ?_, maxCount_nonpos_iff _ _⟩
  have e0 : close_poll_task db posts ts =
      (close_poll db p.id,
        posts ++
          [⟨p.channelId, p.topic,
            p.options.enum.map (fun x =>
              get_poll_results db p.id (x.1 : Int)),
            if 0 < (tallyLoop (get_poll_results db p.id) p.options).1
            then some (tallyLoop (get_poll_results db p.id) p.options).2
            else none⟩]) := by
    unfold close_poll_task
    rw [hfind]
    simp [hact]
  rw [e0, h1]
  by_cases hpos : 0 < maxCount (get_poll_results db p.id) p.options.enum
  · rw [if_pos hpos, if_pos hpos, h2 hpos]
  · rw [if_neg hpos, if_neg hpos]

/-- Witness for C9 at the claim's concrete examples: votes `A→0, B→0,
C→1` give counts `[2, 1]` and sole winner `"A"`; votes `A→0, B→1` give
counts `[1, 1]` with both labels listed; no votes give counts `[0, 0]`
and no winner. -/
theorem C9_tally_correctness_witness :
    (close_poll_task dbThreeFixture [] "ts1").2 =
      [⟨"C", "Konu", [2, 1], some ["A"]⟩] ∧
    (close_poll_task dbTieFixture [] "ts1").2 =
      [⟨"C", "Konu", [1, 1], some ["A", "B"]⟩] ∧
    (close_poll_task pollFixture [] "ts1").2 =
      [⟨"C", "Konu", [0, 0], none⟩] := by
  refine ⟨?_, ?_, ?_⟩
  · have h := (C9_tally_correctness dbThreeFixture [] "ts1"
      ⟨1, "C", "ts1", "adm", "Konu", ["A", "B"], 1000, true⟩
      (by decide) (by decide) (by decide)).2.1
    rw [h]
    decide
  · have h := (C9_tally_correctness dbTieFixture [] "ts1"
      ⟨1, "C", "ts1", "adm", "Konu", ["A", "B"], 1000, true⟩
      (by decide) (by decide) (by decide)).2.1
    rw [h]
    decide
  · have h := (C9_tally_correctness pollFixture [] "ts1"
      ⟨1, "C", "ts1", "adm", "Konu", ["A", "B"], 1000, true⟩
      (by decide) (by decide) (by decide)).2.1
    rw [h]
    decide


end AkademiBot
